import Mathlib

/-!
# Verification of the `session_monitor` repository

Shallow embedding of the session-monitor system:

* `session_db.py`  — the SQLite-backed session registry, embedded as a list of
  `SessionRecord`s with `session_id` as the primary key.  Timestamps
  (`datetime.utcnow().isoformat()`) are modelled as natural numbers (seconds);
  ISO-8601 strings of a common format compare lexicographically exactly as the
  instants they denote, so `<` on `Nat` is a faithful model of the string
  comparisons the SQL queries perform.  Session ids (opaque unique TEXT) are
  modelled as naturals.
* `server.py`      — the FastAPI endpoints over the registry.
* `pool_manager.py` — the reference-counted shared worker pool.
* `session_client.py` / `session_tracker.py` — the per-session client:
  kill-callback handling, the `task` scope, and offline mode.
-/

namespace SessionMonitor

/-- One row of the `sessions` table (`session_db.py`, `init_db`). -/
structure SessionRecord where
  session_id : Nat
  app_name : String
  user_id : Option String
  start_time : Nat
  last_heartbeat : Nat
  status : String
  current_task : Option String
  kill_requested : Bool
deriving Repr, DecidableEq

/-- The `sessions` table: a list of rows.  `session_id` is the primary key;
`KeyUnique` (below) states that invariant. -/
abbrev Db := List SessionRecord

/-- Embeds `session_db.register_session`: INSERT a fresh row with
`start_time = last_heartbeat = now`, `status = 'idle'` (and the schema
defaults `current_task = NULL`, `kill_requested = 0`); ON CONFLICT update
only `last_heartbeat`, `app_name` and `user_id` of the existing row. -/
def register_session (now sid : Nat) (app : String) (uid : Option String)
    (db : Db) : Db :=
  if db.any (fun r => r.session_id == sid) then
    db.map (fun r =>
      if r.session_id == sid then
        { r with last_heartbeat := now, app_name := app, user_id := uid }
      else r)
  else
    db ++ [{ session_id := sid, app_name := app, user_id := uid,
             start_time := now, last_heartbeat := now, status := "idle",
             current_task := none, kill_requested := false }]

/-- Embeds `session_db.update_heartbeat`: UPDATE `last_heartbeat = now` WHERE the id
matches (no row is touched otherwise). -/
def update_heartbeat (now sid : Nat) (db : Db) : Db :=
  db.map (fun r =>
    if r.session_id == sid then { r with last_heartbeat := now } else r)

/-- Embeds `session_db.set_status`: UPDATE `status`, `current_task` and
`last_heartbeat = now` WHERE the id matches. -/
def set_status (now sid : Nat) (status : String) (task : Option String)
    (db : Db) : Db :=
  db.map (fun r =>
    if r.session_id == sid then
      { r with status := status, current_task := task, last_heartbeat := now }
    else r)

/-- Embeds `session_db.remove_session`: DELETE WHERE the id matches. -/
def remove_session (sid : Nat) (db : Db) : Db :=
  db.filter (fun r => !(r.session_id == sid))

/-- Embeds `session_db.request_kill`: UPDATE `kill_requested = 1` WHERE the id
matches. -/
def request_kill (sid : Nat) (db : Db) : Db :=
  db.map (fun r =>
    if r.session_id == sid then { r with kill_requested := true } else r)

/-- Embeds `session_db.check_kill_requested`: SELECT the flag for the id; the result
is `row is not None and row[0] == 1`. -/
def check_kill_requested (sid : Nat) (db : Db) : Bool :=
  db.any (fun r => r.session_id == sid && r.kill_requested)

/-- One element of the list `session_db.get_all_sessions` builds: the stored
columns plus the derived `duration` and `is_stale`, with the returned
`status` replaced by `"stale"` for stale rows. -/
structure SessionView where
  session_id : Nat
  app_name : String
  user_id : Option String
  start_time : Nat
  last_heartbeat : Nat
  duration : Nat
  status : String
  current_task : Option String
  is_stale : Bool
  kill_requested : Bool
deriving Repr, DecidableEq

/-- Embeds `session_db.get_all_sessions`: a read-only snapshot.  `stale_threshold`
is `now - 2 minutes` (120 s); a row is stale when
`last_heartbeat < stale_threshold`; the row ordering (`ORDER BY start_time
DESC`) is not modelled — no claim depends on it. -/
def get_all_sessions (now : Nat) (db : Db) : List SessionView :=
  let stale_threshold := now - 120
  db.map (fun r =>
    let is_stale := r.last_heartbeat < stale_threshold
    { session_id := r.session_id, app_name := r.app_name,
      user_id := r.user_id, start_time := r.start_time,
      last_heartbeat := r.last_heartbeat, duration := now - r.start_time,
      status := if is_stale then "stale" else r.status,
      current_task := r.current_task, is_stale := is_stale,
      kill_requested := r.kill_requested })

/-- Embeds `session_db.cleanup_stale_sessions`: DELETE WHERE
`last_heartbeat < now - older_than_minutes minutes`, returning the new table
and the SQL rowcount (number of rows deleted). -/
def cleanup_stale_sessions (now older_than_minutes : Nat) (db : Db) :
    Db × Nat :=
  let threshold := now - older_than_minutes * 60
  ((db.filter (fun r => !(r.last_heartbeat < threshold))),
   (db.filter (fun r => r.last_heartbeat < threshold)).length)

/-- The primary-key invariant SQLite enforces on the `sessions` table. -/
def KeyUnique (db : Db) : Prop :=
  db.Pairwise (fun a b => a.session_id ≠ b.session_id)

/-- Membership of an id in the table (`SELECT ... WHERE session_id = ?`
finding a row). -/
def presentB (sid : Nat) (db : Db) : Bool :=
  db.any (fun r => r.session_id == sid)

/-! ## The HTTP surface (`server.py`)

`server.py` calls a db layer whose functions (`session_db.create_session`,
`session_db.delete_session`, an `update_heartbeat` returning the kill flag,
`session_db.update_status`, a `request_kill` returning a found-boolean) are
not in the provided sources — the bundled `session_db.py` exposes
`register_session`, `remove_session`, a void `update_heartbeat` and a void
`request_kill` instead.  Those endpoint-facing db functions are therefore
modelled from the spec below, composed from the primitives embedded above.
The server keeps a counter `nextId` from which fresh session ids are drawn
("opaque unique strings (UUID-v4 recommended)" — freshness is what matters,
modelled by a strictly increasing counter). -/

/-- The server's state: the table plus the source of fresh session ids. -/
structure ServerState where
  db : Db
  nextId : Nat
deriving Repr, DecidableEq

/-- Modelled from the spec: `session_db.create_session` (called by the
`POST /sessions` handler in `server.py`) is absent from the provided
sources.  Per the spec it "generates a fresh unique id, inserts a record
with `start_time = last_heartbeat = now`, `status = idle`,
`kill_requested = false`" and returns the id; the insertion itself is the
source's `register_session`. -/
def create_session (now : Nat) (app : String) (uid : Option String)
    (s : ServerState) : Nat × ServerState :=
  let sid := s.nextId
  (sid, { db := register_session now sid app uid s.db, nextId := s.nextId + 1 })

/-- Modelled from the spec: `session_db.delete_session` (called by the
`DELETE /sessions/{id}` handler) is absent from the provided sources (the
bundled file has the void `remove_session`).  Per the spec,
`Delete(session_id) → existed:boolean`; the handler answers 404 when the
boolean is false. -/
def delete_session (sid : Nat) (s : ServerState) : Bool × ServerState :=
  if presentB sid s.db then
    (true, { s with db := remove_session sid s.db })
  else
    (false, s)

/-- Modelled from the spec: the `update_heartbeat` variant `server.py`'s
heartbeat handler expects (returning the kill flag, or `None` for a missing
id) is absent from the provided sources.  Per the spec, `Heartbeat`
"atomically reads the sticky flag and bumps `last_heartbeat = now`; fails
`NotFound` if the id is absent"; the read is the source's
`check_kill_requested` and the bump the source's `update_heartbeat`. -/
def heartbeat_endpoint (now sid : Nat) (s : ServerState) :
    Option Bool × ServerState :=
  if presentB sid s.db then
    (some (check_kill_requested sid s.db),
     { s with db := update_heartbeat now sid s.db })
  else
    (none, s)

/-- Modelled from the spec: `session_db.update_status` (called by the
`PUT /sessions/{id}/status` handler) is absent from the provided sources
(the bundled file has the void `set_status`).  Per the spec, `UpdateStatus`
"sets `status`, `current_task`, bumps `last_heartbeat`" and fails `NotFound`
on a missing id. -/
def update_status (now sid : Nat) (status : String) (task : Option String)
    (s : ServerState) : Bool × ServerState :=
  if presentB sid s.db then
    (true, { s with db := set_status now sid status task s.db })
  else
    (false, s)

/-- Modelled from the spec: the `request_kill` variant `server.py`'s kill
handler expects (returning a found-boolean) is absent from the provided
sources (the bundled `request_kill` is void).  Per the spec, `RequestKill`
"sets the sticky flag" and fails `NotFound` on a missing id; setting the
flag is the source's `request_kill`. -/
def kill_endpoint (sid : Nat) (s : ServerState) : Bool × ServerState :=
  if presentB sid s.db then
    (true, { s with db := request_kill sid s.db })
  else
    (false, s)

/-- Embeds `GET /sessions` (`server.py`, `list_sessions`): a read-only SELECT; the
state is returned unchanged. -/
def list_endpoint (now : Nat) (s : ServerState) :
    List SessionView × ServerState :=
  (get_all_sessions now s.db, s)

/-- Embeds `DELETE /sessions/stale` (`server.py`, `cleanup_stale_sessions`). -/
def cleanup_endpoint (now m : Nat) (s : ServerState) : Nat × ServerState :=
  let (db, n) := cleanup_stale_sessions now m s.db
  (n, { s with db := db })

/-- One request at the HTTP surface (the `now` at which it executes is part
of the operation). -/
inductive ApiOp where
  | create (now : Nat) (app : String) (uid : Option String)
  | delete (sid : Nat)
  | heartbeat (now sid : Nat)
  | status (now sid : Nat) (st : String) (task : Option String)
  | kill (sid : Nat)
  | reap (now m : Nat)
  | list (now : Nat)
deriving Repr, DecidableEq

/-- The state transition of one request (responses discarded). -/
def apiStep (s : ServerState) : ApiOp → ServerState
  | .create now app uid => (create_session now app uid s).2
  | .delete sid => (delete_session sid s).2
  | .heartbeat now sid => (heartbeat_endpoint now sid s).2
  | .status now sid st task => (update_status now sid st task s).2
  | .kill sid => (kill_endpoint sid s).2
  | .reap now m => (cleanup_endpoint now m s).2
  | .list now => (list_endpoint now s).2

/-- Running a request sequence. -/
def apiRun (s : ServerState) (ops : List ApiOp) : ServerState :=
  ops.foldl apiStep s

/-- The server invariant: the table's primary key is unique and every stored
id was drawn from the counter. -/
def ServerInv (s : ServerState) : Prop :=
  KeyUnique s.db ∧ ∀ r ∈ s.db, r.session_id < s.nextId

/-! ## The shared worker pool (`pool_manager.py`)

Module state: `_pool` (the `amp.Pool` or `None`), `_active_sessions` (an
int), a lock.  The lock serialises the operations; the sequential model
below is the per-operation semantics.  Pool instances are identified by an
epoch so that "a distinct new pool instance" is expressible; `nextEpoch`
plays the role of object identity of a freshly constructed `amp.Pool`. -/

/-- The module-level pool state of `pool_manager.py`. -/
structure PoolState where
  pool : Option Nat
  nextEpoch : Nat
  active : Int
deriving Repr, DecidableEq

/-- Embeds `pool_manager.get_pool`: return the pool, constructing it if absent. -/
def get_pool (s : PoolState) : Nat × PoolState :=
  match s.pool with
  | some e => (e, s)
  | none => (s.nextEpoch,
      { s with pool := some s.nextEpoch, nextEpoch := s.nextEpoch + 1 })

/-- Embeds `pool_manager.shutdown_pool`: drop the reference and terminate the
workers (termination errors are logged and ignored; the reference is
dropped regardless). -/
def shutdown_pool (s : PoolState) : PoolState :=
  { s with pool := none }

/-- Embeds `pool_manager.increment_sessions`: `_active_sessions += 1`. -/
def increment_sessions (s : PoolState) : PoolState :=
  { s with active := s.active + 1 }

/-- Embeds `pool_manager.decrement_sessions`:
`_active_sessions = max(0, _active_sessions - 1)`; when the count is 0
afterwards, `shutdown_pool()` runs. -/
def decrement_sessions (s : PoolState) : PoolState :=
  let s := { s with active := max 0 (s.active - 1) }
  if s.active = 0 then shutdown_pool s else s

/-- The spec's `Acquire`/`Release` pair, as the using app performs them
(`app_pool.PoolApp.run`: `get_pool()` then `_increment_sessions()`;
`kill_handler`: `_decrement_sessions()`). -/
inductive PoolOp where
  | acquire
  | release
deriving Repr, DecidableEq

/-- One `Acquire` or `Release`. -/
def poolStep (s : PoolState) : PoolOp → PoolState
  | .acquire => increment_sessions (get_pool s).2
  | .release => decrement_sessions s

/-- The initial module state (`_pool = None`, `_active_sessions = 0`) and a
run from it. -/
def poolInit : PoolState := { pool := none, nextEpoch := 0, active := 0 }

/-- Folding a sequence of `Acquire`/`Release` operations from module load. -/
def poolRun (ops : List PoolOp) : PoolState :=
  ops.foldl poolStep poolInit

/-! ## Kill callbacks (`session_client.py`)

`SessionClient` keeps `_on_kill_callbacks : list`.  `on_kill` appends.  Both
`_handle_kill_request` (the heartbeat thread seeing `kill_requested`) and
`stop()` (explicit stop / host session-end / atexit) run the same
swap-and-invoke: take the current list, replace it with `[]`, call each
callback in order inside `try/except` (a failure is logged and the loop
continues).  Callbacks are identified by naturals; whether one raises is
given by the environment `fails`; the run log records each invocation
together with whether it succeeded. -/

/-- The callback state of one `SessionClient`: the pending list (in
registration order) and the log of invocations made so far. -/
structure CbState where
  pending : List Nat
  runLog : List (Nat × Bool)
deriving Repr, DecidableEq

/-- The `for cb in callbacks: try: cb() except: log` loop: every callback is
invoked; a failure (`fails c`) is caught, so the remaining callbacks still
run. -/
def invokeAll (fails : Nat → Bool) (cs : List Nat) : List (Nat × Bool) :=
  cs.map (fun c => (c, !fails c))

/-- The swap-and-invoke both `_handle_kill_request` and `stop` perform:
`callbacks = self._on_kill_callbacks; self._on_kill_callbacks = []` then the
invocation loop. -/
def consumeCallbacks (fails : Nat → Bool) (st : CbState) : CbState :=
  { pending := [], runLog := st.runLog ++ invokeAll fails st.pending }

/-- Events affecting the callback list, in the order they happen to be
serialised: a registration (`on_kill`), the heartbeat thread detecting the
kill (`_handle_kill_request`), or any `stop()` trigger (explicit stop, host
session-end hook, atexit). -/
inductive ClientOp where
  | onKill (c : Nat)
  | killDetected
  | stopCall
deriving Repr, DecidableEq

/-- One event.  `on_kill` merely appends; `_handle_kill_request` runs the
swap-and-invoke and then reaches `stop()` (whose own swap finds the list
already empty); `stop()` runs the swap-and-invoke. -/
def clientStep (fails : Nat → Bool) (st : CbState) : ClientOp → CbState
  | .onKill c => { st with pending := st.pending ++ [c] }
  | .killDetected => consumeCallbacks fails (consumeCallbacks fails st)
  | .stopCall => consumeCallbacks fails st

/-- Folding a sequence of events from a fresh client
(`_on_kill_callbacks = []`). -/
def execClient (fails : Nat → Bool) (ops : List ClientOp) : CbState :=
  ops.foldl (clientStep fails) { pending := [], runLog := [] }

/-- Is the event one of the consuming triggers? -/
def ClientOp.isTrigger : ClientOp → Bool
  | .onKill _ => false
  | .killDetected => true
  | .stopCall => true

/-! ## Client initialisation, offline mode and the `task` scope
(`session_client.py`, `session_tracker.py`) -/

/-- The connection-relevant part of a `SessionClient` after `__init__`. -/
structure ClientState where
  connected : Bool
  heartbeatStarted : Bool
  sessionId : Nat
deriving Repr, DecidableEq

/-- Embeds `SessionClient.__init__` + `_register_session`: the registration either
succeeds with a server-assigned id (`some sid`) or raises (`none`), in which
case the exception is caught, `_connected` is set to `False` and a local id
is used; the heartbeat thread is started only when `_connected`.  The
function is total: no exception escapes `__init__` through this path. -/
def client_init (registerResult : Option Nat) (localId : Nat) : ClientState :=
  match registerResult with
  | some sid => { connected := true, heartbeatStarted := true, sessionId := sid }
  | none => { connected := false, heartbeatStarted := false, sessionId := localId }

/-- Embeds `SessionClient.set_status`: `if not self._connected: return` — offline
it touches nothing; connected it performs the PUT (the server's
status update). -/
def client_set_status (c : ClientState) (now : Nat) (status : String)
    (task : Option String) (s : ServerState) : ServerState :=
  if c.connected then (update_status now c.sessionId status task s).2 else s

/-- The wrapped work of a `task` block: it finishes with a value or raises. -/
inductive Outcome (E A : Type) where
  | ok (a : A)
  | exn (e : E)
deriving Repr, DecidableEq

/-- Embeds `SessionTracker.task` / `SessionClient.task`:
`set_status("running", name); try: yield; finally: set_status("idle", None)`.
The entry update runs at `now₁`; the body then finishes or raises
(`body`); the `finally` update runs at `now₂` on either path, and the
body's outcome (value or exception) is what the block yields to its
caller. -/
def tracker_task {E A : Type} (now₁ now₂ sid : Nat) (name : String)
    (body : Outcome E A) (db : Db) : Outcome E A × Db :=
  let dbEntry := set_status now₁ sid "running" (some name) db
  let dbExit := set_status now₂ sid "idle" none dbEntry
  (body, dbExit)

/-- Embeds `SessionClient.task`, which goes through `set_status` and hence is a
no-op on the server when offline. -/
def client_task {E A : Type} (c : ClientState) (now₁ now₂ : Nat)
    (name : String) (body : Outcome E A) (s : ServerState) :
    Outcome E A × ServerState :=
  let sEntry := client_set_status c now₁ "running" (some name) s
  let sExit := client_set_status c now₂ "idle" none sEntry
  (body, sExit)

/-! ## Lemmas about the registry -/

lemma presentB_iff {sid : Nat} {db : Db} :
    presentB sid db = true ↔ ∃ r ∈ db, r.session_id = sid := by
  simp [presentB, List.any_eq_true]

lemma presentB_eq_false {sid : Nat} {db : Db} :
    presentB sid db = false ↔ ∀ r ∈ db, r.session_id ≠ sid := by
  simp [presentB, List.any_eq_false]

/-- The PRIMARY KEY: two rows of a key-unique table with the same id are the
same row. -/
lemma mem_same_key {db : Db} {r x : SessionRecord} (hu : KeyUnique db)
    (hr : r ∈ db) (hx : x ∈ db) (h : r.session_id = x.session_id) : r = x := by
  induction db with
  | nil => cases hr
  | cons a t ih =>
    rcases List.pairwise_cons.mp hu with ⟨ha, ht⟩
    rcases List.mem_cons.mp hr with rfl | hr'
    · rcases List.mem_cons.mp hx with rfl | hx'
      · rfl
      · exact absurd h (ha x hx')
    · rcases List.mem_cons.mp hx with rfl | hx'
      · exact absurd h.symm (ha r hr')
      · exact ih ht hr' hx'

/-- On a key-unique table, `check_kill_requested` returns exactly the stored
flag of the row with the requested id. -/
lemma check_kill_eq {sid : Nat} {db : Db} {r : SessionRecord}
    (hu : KeyUnique db) (hr : r ∈ db) (hsid : r.session_id = sid) :
    check_kill_requested sid db = r.kill_requested := by
  unfold check_kill_requested
  cases hkr : r.kill_requested with
  | true =>
    rw [List.any_eq_true]
    exact ⟨r, hr, by simp [hsid, hkr]⟩
  | false =>
    rw [List.any_eq_false]
    intro x hx
    by_cases hxs : x.session_id = sid
    · have hxr : r = x := mem_same_key hu hr hx (hsid.trans hxs.symm)
      simp [hxs, ← hxr, hkr]
    · simp [hxs]

lemma keyUnique_map {db : Db} {f : SessionRecord → SessionRecord}
    (hf : ∀ r, (f r).session_id = r.session_id) (hu : KeyUnique db) :
    KeyUnique (db.map f) := by
  unfold KeyUnique at *
  exact hu.map f (fun a b hab => by simpa [hf] using hab)

lemma keyUnique_filter {db : Db} {p : SessionRecord → Bool} (hu : KeyUnique db) :
    KeyUnique (db.filter p) :=
  List.Pairwise.sublist (List.filter_sublist db) hu

lemma serverInv_map {s : ServerState} {f : SessionRecord → SessionRecord}
    (hf : ∀ r, (f r).session_id = r.session_id) (h : ServerInv s) :
    ServerInv { s with db := s.db.map f } := by
  obtain ⟨hu, hid⟩ := h
  refine ⟨keyUnique_map hf hu, ?_⟩
  intro r hr
  rcases List.mem_map.mp hr with ⟨x, hx, rfl⟩
  rw [hf]
  exact hid x hx

lemma serverInv_filter {s : ServerState} {p : SessionRecord → Bool}
    (h : ServerInv s) : ServerInv { s with db := s.db.filter p } := by
  obtain ⟨hu, hid⟩ := h
  exact ⟨keyUnique_filter hu, fun r hr => hid r (List.mem_filter.mp hr).1⟩

/-- The counter's next id never occurs in a table satisfying the invariant. -/
lemma nextId_fresh {s : ServerState} (h : ServerInv s) :
    presentB s.nextId s.db = false := by
  rw [presentB_eq_false]
  exact fun r hr => Nat.ne_of_lt (h.2 r hr)

/-- With a fresh id, `register_session` takes the INSERT branch. -/
lemma register_session_fresh {now sid : Nat} {app : String}
    {uid : Option String} {db : Db} (h : presentB sid db = false) :
    register_session now sid app uid db
      = db ++ [{ session_id := sid, app_name := app, user_id := uid,
                 start_time := now, last_heartbeat := now, status := "idle",
                 current_task := none, kill_requested := false }] := by
  unfold register_session
  rw [show (db.any fun r => r.session_id == sid) = false from h]
  rfl

/-! ## Preservation of the server invariant -/

lemma heartbeat_endpoint_snd (now sid : Nat) (s : ServerState) :
    (heartbeat_endpoint now sid s).2
      = if presentB sid s.db then { s with db := update_heartbeat now sid s.db }
        else s := by
  unfold heartbeat_endpoint
  split <;> rfl

lemma delete_session_snd (sid : Nat) (s : ServerState) :
    (delete_session sid s).2
      = if presentB sid s.db then { s with db := remove_session sid s.db }
        else s := by
  unfold delete_session
  split <;> rfl

lemma update_status_snd (now sid : Nat) (st : String) (task : Option String)
    (s : ServerState) :
    (update_status now sid st task s).2
      = if presentB sid s.db then { s with db := set_status now sid st task s.db }
        else s := by
  unfold update_status
  split <;> rfl

lemma kill_endpoint_snd (sid : Nat) (s : ServerState) :
    (kill_endpoint sid s).2
      = if presentB sid s.db then { s with db := request_kill sid s.db }
        else s := by
  unfold kill_endpoint
  split <;> rfl

lemma serverInv_create (now : Nat) (app : String) (uid : Option String)
    {s : ServerState} (h : ServerInv s) :
    ServerInv (create_session now app uid s).2 := by
  obtain ⟨hu, hid⟩ := h
  unfold create_session
  dsimp only
  rw [register_session_fresh (nextId_fresh ⟨hu, hid⟩)]
  constructor
  · unfold KeyUnique at *
    rw [List.pairwise_append]
    refine ⟨hu, List.pairwise_singleton _ _, ?_⟩
    intro a ha b hb
    rw [List.mem_singleton] at hb
    subst hb
    exact Nat.ne_of_lt (hid a ha)
  · intro r hr
    rcases List.mem_append.mp hr with hr' | hr'
    · exact Nat.lt_succ_of_lt (hid r hr')
    · rw [List.mem_singleton] at hr'
      subst hr'
      exact Nat.lt_succ_self _

lemma apiStep_inv {s : ServerState} (op : ApiOp) (h : ServerInv s) :
    ServerInv (apiStep s op) := by
  cases op with
  | create now app uid => exact serverInv_create now app uid h
  | delete sid =>
    show ServerInv (delete_session sid s).2
    rw [delete_session_snd]
    split
    · exact serverInv_filter h
    · exact h
  | heartbeat now sid =>
    show ServerInv (heartbeat_endpoint now sid s).2
    rw [heartbeat_endpoint_snd]
    split
    · exact serverInv_map (fun r => by split <;> rfl) h
    · exact h
  | status now sid st task =>
    show ServerInv (update_status now sid st task s).2
    rw [update_status_snd]
    split
    · exact serverInv_map (fun r => by split <;> rfl) h
    · exact h
  | kill sid =>
    show ServerInv (kill_endpoint sid s).2
    rw [kill_endpoint_snd]
    split
    · exact serverInv_map (fun r => by split <;> rfl) h
    · exact h
  | reap now m =>
    show ServerInv (cleanup_endpoint now m s).2
    unfold cleanup_endpoint cleanup_stale_sessions
    exact serverInv_filter h
  | list now => exact h

lemma apiStep_nextId {s : ServerState} (op : ApiOp) :
    s.nextId ≤ (apiStep s op).nextId := by
  cases op with
  | create now app uid => exact Nat.le_succ _
  | delete sid =>
    show s.nextId ≤ (delete_session sid s).2.nextId
    rw [delete_session_snd]; split <;> exact Nat.le_refl _
  | heartbeat now sid =>
    show s.nextId ≤ (heartbeat_endpoint now sid s).2.nextId
    rw [heartbeat_endpoint_snd]; split <;> exact Nat.le_refl _
  | status now sid st task =>
    show s.nextId ≤ (update_status now sid st task s).2.nextId
    rw [update_status_snd]; split <;> exact Nat.le_refl _
  | kill sid =>
    show s.nextId ≤ (kill_endpoint sid s).2.nextId
    rw [kill_endpoint_snd]; split <;> exact Nat.le_refl _
  | reap now m => exact Nat.le_refl _
  | list now => exact Nat.le_refl _

/-- Where the ids in the table after one request come from: an id already
stored, or the fresh id a `create` drew from the counter. -/
lemma apiStep_ids {s : ServerState} {op : ApiOp} {r' : SessionRecord}
    (hr' : r' ∈ (apiStep s op).db) :
    (∃ r ∈ s.db, r'.session_id = r.session_id) ∨ r'.session_id = s.nextId := by
  cases op with
  | create now app uid =>
    revert hr'
    show r' ∈ (create_session now app uid s).2.db → _
    unfold create_session register_session
    dsimp only
    split
    · intro hr'
      rcases List.mem_map.mp hr' with ⟨x, hx, rfl⟩
      left
      refine ⟨x, hx, ?_⟩
      split <;> rfl
    · intro hr'
      rcases List.mem_append.mp hr' with hr'' | hr''
      · exact Or.inl ⟨r', hr'', rfl⟩
      · rw [List.mem_singleton] at hr''
        subst hr''
        exact Or.inr rfl
  | delete sid =>
    rw [show apiStep s (.delete sid) = (delete_session sid s).2 from rfl,
        delete_session_snd] at hr'
    revert hr'
    split
    · intro hr'
      exact Or.inl ⟨r', (List.mem_filter.mp hr').1, rfl⟩
    · intro hr'
      exact Or.inl ⟨r', hr', rfl⟩
  | heartbeat now sid =>
    rw [show apiStep s (.heartbeat now sid) = (heartbeat_endpoint now sid s).2 from rfl,
        heartbeat_endpoint_snd] at hr'
    revert hr'
    split
    · intro hr'
      rcases List.mem_map.mp hr' with ⟨x, hx, rfl⟩
      refine Or.inl ⟨x, hx, ?_⟩
      split <;> rfl
    · intro hr'
      exact Or.inl ⟨r', hr', rfl⟩
  | status now sid st task =>
    rw [show apiStep s (.status now sid st task) = (update_status now sid st task s).2 from rfl,
        update_status_snd] at hr'
    revert hr'
    split
    · intro hr'
      rcases List.mem_map.mp hr' with ⟨x, hx, rfl⟩
      refine Or.inl ⟨x, hx, ?_⟩
      split <;> rfl
    · intro hr'
      exact Or.inl ⟨r', hr', rfl⟩
  | kill sid =>
    rw [show apiStep s (.kill sid) = (kill_endpoint sid s).2 from rfl,
        kill_endpoint_snd] at hr'
    revert hr'
    split
    · intro hr'
      rcases List.mem_map.mp hr' with ⟨x, hx, rfl⟩
      refine Or.inl ⟨x, hx, ?_⟩
      split <;> rfl
    · intro hr'
      exact Or.inl ⟨r', hr', rfl⟩
  | reap now m =>
    exact Or.inl ⟨r', (List.mem_filter.mp hr').1, rfl⟩
  | list now => exact Or.inl ⟨r', hr', rfl⟩

/-- After a successful delete the id is out of the table, below the counter,
and will stay that way; this is the inductive invariant behind claim C6. -/
def Gone (sid : Nat) (s : ServerState) : Prop :=
  ServerInv s ∧ sid < s.nextId ∧ ∀ r ∈ s.db, r.session_id ≠ sid

lemma gone_step {sid : Nat} {s : ServerState} (op : ApiOp)
    (h : Gone sid s) : Gone sid (apiStep s op) := by
  obtain ⟨hinv, hlt, habs⟩ := h
  refine ⟨apiStep_inv op hinv, Nat.lt_of_lt_of_le hlt (apiStep_nextId op), ?_⟩
  intro r' hr'
  rcases apiStep_ids hr' with ⟨r, hr, hsid⟩ | hsid
  · rw [hsid]
    exact habs r hr
  · rw [hsid]
    exact fun hc => absurd hc.symm (Nat.ne_of_lt hlt)

lemma gone_run {sid : Nat} {s : ServerState} (ops : List ApiOp)
    (h : Gone sid s) : Gone sid (apiRun s ops) := by
  induction ops generalizing s with
  | nil => exact h
  | cons op rest ih => exact ih (gone_step op h)

/-! ## Lemmas about the pool supervisor -/

/-- The pool lifecycle invariant: the count is non-negative, the pool object
exists exactly while the count is positive, and every live pool's epoch is
below the epoch counter. -/
def PoolInv (s : PoolState) : Prop :=
  0 ≤ s.active ∧ (s.pool.isSome ↔ 0 < s.active)
    ∧ ∀ e, s.pool = some e → e < s.nextEpoch

lemma poolInit_inv : PoolInv poolInit := by
  refine ⟨Int.le_refl 0, by simp [poolInit], by simp [poolInit]⟩

/-- Unfolding of `decrement_sessions`, with the `shutdown_pool` call inlined. -/
lemma decrement_sessions_eq (s : PoolState) :
    decrement_sessions s
      = if max 0 (s.active - 1) = 0
        then { s with active := max 0 (s.active - 1), pool := none }
        else { s with active := max 0 (s.active - 1) } := by
  unfold decrement_sessions shutdown_pool
  dsimp only

lemma poolStep_inv {s : PoolState} (op : PoolOp) (h : PoolInv s) :
    PoolInv (poolStep s op) := by
  obtain ⟨h0, hiff, hep⟩ := h
  cases op with
  | acquire =>
    cases hp : s.pool with
    | some e =>
      refine ⟨by simp [poolStep, increment_sessions, get_pool, hp]; omega,
              by simp [poolStep, increment_sessions, get_pool, hp]; omega, ?_⟩
      intro e' he'
      simp [poolStep, increment_sessions, get_pool, hp] at he' ⊢
      exact he' ▸ hep e hp
    | none =>
      refine ⟨by simp [poolStep, increment_sessions, get_pool, hp]; omega,
              by simp [poolStep, increment_sessions, get_pool, hp]; omega, ?_⟩
      intro e' he'
      simp [poolStep, increment_sessions, get_pool, hp] at he' ⊢
      omega
  | release =>
    rcases le_or_lt s.active 1 with hle | hlt
    · have hz : max 0 (s.active - 1) = 0 := max_eq_left (by omega)
      have hstep : poolStep s .release = { s with active := 0, pool := none } := by
        show decrement_sessions s = _
        rw [decrement_sessions_eq, hz]
        simp
      rw [hstep]
      exact ⟨Int.le_refl 0, by simp, by simp⟩
    · have hz : max 0 (s.active - 1) = s.active - 1 := max_eq_right (by omega)
      have hne : s.active - 1 ≠ 0 := by omega
      have hsome : s.pool.isSome := hiff.mpr (by omega)
      have hstep : poolStep s .release = { s with active := s.active - 1 } := by
        show decrement_sessions s = _
        rw [decrement_sessions_eq, hz]
        simp [hne]
      rw [hstep]
      refine ⟨by show (0:Int) ≤ s.active - 1; omega, ?_, ?_⟩
      · show s.pool.isSome ↔ 0 < s.active - 1
        exact ⟨fun _ => by omega, fun _ => hsome⟩
      · intro e' he'
        exact hep e' he'

lemma poolStep_nextEpoch {s : PoolState} (op : PoolOp) :
    s.nextEpoch ≤ (poolStep s op).nextEpoch := by
  cases op with
  | acquire =>
    cases hp : s.pool with
    | some e => simp [poolStep, increment_sessions, get_pool, hp]
    | none => simp [poolStep, increment_sessions, get_pool, hp]
  | release =>
    by_cases hz : max 0 (s.active - 1) = 0 <;>
      simp [poolStep, decrement_sessions, shutdown_pool, hz]

lemma poolFold_inv {s : PoolState} (ops : List PoolOp) (h : PoolInv s) :
    PoolInv (ops.foldl poolStep s) := by
  induction ops generalizing s with
  | nil => exact h
  | cons op rest ih => exact ih (poolStep_inv op h)

lemma poolFold_nextEpoch {s : PoolState} (ops : List PoolOp) :
    s.nextEpoch ≤ (ops.foldl poolStep s).nextEpoch := by
  induction ops generalizing s with
  | nil => exact Nat.le_refl _
  | cons op rest ih =>
    exact Nat.le_trans (poolStep_nextEpoch op) (ih (s := poolStep s op))

lemma poolRun_inv (ops : List PoolOp) : PoolInv (poolRun ops) :=
  poolFold_inv ops poolInit_inv

/-! ## Lemmas about the kill-callback machinery -/

lemma invokeAll_fst (fails : Nat → Bool) (cs : List Nat) :
    (invokeAll fails cs).map Prod.fst = cs := by
  simp [invokeAll, List.map_map, Function.comp_def]

/-- Registrations via `on_kill` only queue: folding a block of registrations
appends them, in order, to the pending list. -/
lemma exec_onKill_list (fails : Nat → Bool) (st : CbState) (cs : List Nat) :
    (cs.map ClientOp.onKill).foldl (clientStep fails) st
      = { st with pending := st.pending ++ cs } := by
  induction cs generalizing st with
  | nil => simp
  | cons c cs ih =>
    simp only [List.map_cons, List.foldl_cons]
    rw [ih]
    simp [clientStep]

/-- How many times `c` is pending plus how many times it has been invoked. -/
def cbCount (c : Nat) (st : CbState) : Nat :=
  st.pending.count c + (st.runLog.map Prod.fst).count c

lemma consume_count (fails : Nat → Bool) (c : Nat) (st : CbState) :
    cbCount c (consumeCallbacks fails st) = cbCount c st := by
  simp [cbCount, consumeCallbacks, List.map_append, List.count_append,
        invokeAll_fst, Nat.add_comm]

lemma clientStep_count (fails : Nat → Bool) (c : Nat) (st : CbState)
    (op : ClientOp) :
    cbCount c (clientStep fails st op)
      = cbCount c st + (if op = ClientOp.onKill c then 1 else 0) := by
  cases op with
  | onKill d =>
    simp only [clientStep, cbCount, List.count_append, List.count_cons,
               List.count_nil, ClientOp.onKill.injEq]
    by_cases hdc : d = c <;> simp [hdc] <;> omega
  | killDetected =>
    rw [show clientStep fails st .killDetected
          = consumeCallbacks fails (consumeCallbacks fails st) from rfl,
        consume_count, consume_count]
    simp
  | stopCall =>
    rw [show clientStep fails st .stopCall = consumeCallbacks fails st from rfl,
        consume_count]
    simp

lemma exec_count (fails : Nat → Bool) (c : Nat) (ops : List ClientOp)
    (st : CbState) :
    cbCount c (ops.foldl (clientStep fails) st)
      = cbCount c st + ops.count (ClientOp.onKill c) := by
  induction ops generalizing st with
  | nil => simp
  | cons op rest ih =>
    simp only [List.foldl_cons, List.count_cons]
    rw [ih, clientStep_count]
    by_cases h : op = ClientOp.onKill c <;> simp [h] <;> omega

/-- Any trigger leaves an empty pending list behind. -/
lemma trigger_pending (fails : Nat → Bool) (st : CbState) {op : ClientOp}
    (h : op.isTrigger = true) : (clientStep fails st op).pending = [] := by
  cases op with
  | onKill c => simp [ClientOp.isTrigger] at h
  | killDetected => rfl
  | stopCall => rfl

/-- Once `c` is not pending, only a further `on_kill c` can make it pending
again. -/
lemma pending_no_new (fails : Nat → Bool) (c : Nat) (ops : List ClientOp)
    (st : CbState) (hst : c ∉ st.pending) (hops : ClientOp.onKill c ∉ ops) :
    c ∉ (ops.foldl (clientStep fails) st).pending := by
  induction ops generalizing st with
  | nil => exact hst
  | cons op rest ih =>
    simp only [List.foldl_cons]
    refine ih _ ?_ (fun h => hops (List.mem_cons_of_mem _ h))
    cases op with
    | onKill d =>
      have hdc : d ≠ c := by
        intro h
        exact hops (by rw [h]; exact List.mem_cons_self _ _)
      simp [clientStep, hst, Ne.symm hdc]
    | killDetected => simp [clientStep, consumeCallbacks]
    | stopCall => simp [clientStep, consumeCallbacks]

/-! ## Endpoint case equations -/

lemma heartbeat_endpoint_present {now sid : Nat} {s : ServerState}
    (h : presentB sid s.db = true) :
    heartbeat_endpoint now sid s
      = (some (check_kill_requested sid s.db),
         { s with db := update_heartbeat now sid s.db }) := by
  unfold heartbeat_endpoint
  rw [h]
  simp

lemma heartbeat_endpoint_absent {now sid : Nat} {s : ServerState}
    (h : presentB sid s.db = false) :
    heartbeat_endpoint now sid s = (none, s) := by
  unfold heartbeat_endpoint
  rw [h]
  simp

lemma kill_endpoint_present {sid : Nat} {s : ServerState}
    (h : presentB sid s.db = true) :
    kill_endpoint sid s = (true, { s with db := request_kill sid s.db }) := by
  unfold kill_endpoint
  rw [h]
  simp

lemma delete_session_present {sid : Nat} {s : ServerState}
    (h : presentB sid s.db = true) :
    delete_session sid s = (true, { s with db := remove_session sid s.db }) := by
  unfold delete_session
  rw [h]
  simp

lemma delete_session_absent {sid : Nat} {s : ServerState}
    (h : presentB sid s.db = false) :
    delete_session sid s = (false, s) := by
  unfold delete_session
  rw [h]
  simp

/-! ## The sticky kill flag -/

/-- Every row carrying this id has its kill flag set. -/
def Killed (sid : Nat) (db : Db) : Prop :=
  ∀ r ∈ db, r.session_id = sid → r.kill_requested = true

lemma killed_map {sid : Nat} {db : Db} {f : SessionRecord → SessionRecord}
    (hfs : ∀ r, (f r).session_id = r.session_id)
    (hfk : ∀ r, (f r).kill_requested = r.kill_requested
              ∨ (f r).kill_requested = true)
    (hk : Killed sid db) : Killed sid (db.map f) := by
  intro r' hr' hsid
  rcases List.mem_map.mp hr' with ⟨x, hx, rfl⟩
  rcases hfk x with h | h
  · rw [h]
    exact hk x hx (by rw [← hfs x]; exact hsid)
  · exact h

lemma killed_filter {sid : Nat} {db : Db} {p : SessionRecord → Bool}
    (hk : Killed sid db) : Killed sid (db.filter p) :=
  fun r hr hs => hk r (List.mem_filter.mp hr).1 hs

/-- On rows whose flag is already set, `request_kill` rewrites nothing: the
second kill is a no-op on the table. -/
lemma request_kill_noop {sid : Nat} {db : Db} (h : Killed sid db) :
    request_kill sid db = db := by
  unfold request_kill
  rw [show db.map _ = db.map id from List.map_congr_left ?_, List.map_id]
  intro r hr
  simp only [id_eq]
  by_cases hs : r.session_id = sid
  · rw [if_pos (by simp [hs])]
    have hk := h r hr hs
    cases r
    simp_all
  · rw [if_neg (by simp [hs])]

/-- No request clears a set kill flag while the row is present: every
operation of the HTTP surface preserves `Killed`. -/
lemma killed_step {sid : Nat} {s : ServerState} (op : ApiOp)
    (hk : Killed sid s.db) (hp : presentB sid s.db = true) :
    Killed sid (apiStep s op).db := by
  cases op with
  | create now app uid =>
    show Killed sid (register_session now s.nextId app uid s.db)
    unfold register_session
    by_cases hc : (s.db.any fun r => r.session_id == s.nextId) = true
    · rw [if_pos hc]
      exact killed_map (fun r => by split <;> rfl)
        (fun r => Or.inl (by split <;> rfl)) hk
    · rw [if_neg hc]
      intro r' hr' hsid
      rcases List.mem_append.mp hr' with h | h
      · exact hk r' h hsid
      · rw [List.mem_singleton] at h
        subst h
        exfalso
        apply hc
        simp only at hsid
        rw [hsid]
        exact hp
  | delete sid' =>
    rw [show (apiStep s (.delete sid')).db = (delete_session sid' s).2.db from rfl,
        delete_session_snd]
    split
    · exact killed_filter hk
    · exact hk
  | heartbeat now sid' =>
    rw [show (apiStep s (.heartbeat now sid')).db
          = (heartbeat_endpoint now sid' s).2.db from rfl,
        heartbeat_endpoint_snd]
    split
    · exact killed_map (fun r => by split <;> rfl)
        (fun r => Or.inl (by split <;> rfl)) hk
    · exact hk
  | status now sid' st task =>
    rw [show (apiStep s (.status now sid' st task)).db
          = (update_status now sid' st task s).2.db from rfl,
        update_status_snd]
    split
    · exact killed_map (fun r => by split <;> rfl)
        (fun r => Or.inl (by split <;> rfl)) hk
    · exact hk
  | kill sid' =>
    rw [show (apiStep s (.kill sid')).db = (kill_endpoint sid' s).2.db from rfl,
        kill_endpoint_snd]
    split
    · refine killed_map (fun r => by split <;> rfl) (fun r => ?_) hk
      dsimp only [request_kill]
      split
      · exact Or.inr rfl
      · exact Or.inl rfl
    · exact hk
  | reap now m => exact killed_filter hk
  | list now => exact hk

/-- The sticky flag survives any request sequence during which the row stays
present. -/
lemma killed_run {sid : Nat} {s : ServerState} (ops : List ApiOp)
    (hk : Killed sid s.db)
    (hp : ∀ p, p <+: ops → presentB sid (apiRun s p).db = true) :
    Killed sid (apiRun s ops).db := by
  induction ops generalizing s with
  | nil => exact hk
  | cons op rest ih =>
    have h0 : presentB sid s.db = true := hp [] List.nil_prefix
    refine ih (s := apiStep s op) (killed_step op hk h0) ?_
    intro p hpre
    obtain ⟨t, ht⟩ := hpre
    exact hp (op :: p) ⟨t, by rw [List.cons_append, ht]⟩

/-! ## The claims -/

/-- C1: for every id present in the store, `POST /sessions/{id}/heartbeat`
reads the sticky `kill_requested` flag, sets that row's `last_heartbeat` to
the current time leaving its other fields and every other row unchanged, and
returns the flag's value; for every absent id it returns 404 (`none`) and
leaves the store unchanged. -/
theorem heartbeat_reads_flag_bumps_time (now sid : Nat) (s : ServerState)
    (hinv : ServerInv s) :
    (∀ r ∈ s.db, r.session_id = sid →
        (heartbeat_endpoint now sid s).1 = some r.kill_requested
        ∧ { r with last_heartbeat := now } ∈ (heartbeat_endpoint now sid s).2.db)
    ∧ (∀ r ∈ s.db, r.session_id ≠ sid → r ∈ (heartbeat_endpoint now sid s).2.db)
    ∧ ((∀ r ∈ s.db, r.session_id ≠ sid) →
        heartbeat_endpoint now sid s = (none, s)) := by
  refine ⟨?_, ?_, ?_⟩
  · intro r hr hsid
    have hpres : presentB sid s.db = true := presentB_iff.mpr ⟨r, hr, hsid⟩
    rw [heartbeat_endpoint_present hpres]
    refine ⟨by rw [check_kill_eq hinv.1 hr hsid], ?_⟩
    unfold update_heartbeat
    exact List.mem_map.mpr ⟨r, hr, by simp [hsid]⟩
  · intro r hr hsid
    rcases hp : presentB sid s.db with hfalse | htrue
    · rw [heartbeat_endpoint_absent hp]
      exact hr
    · rw [heartbeat_endpoint_present hp]
      show r ∈ update_heartbeat now sid s.db
      unfold update_heartbeat
      exact List.mem_map.mpr ⟨r, hr, by simp [hsid]⟩
  · intro habs
    exact heartbeat_endpoint_absent (presentB_eq_false.mpr habs)

/-- Witness for C1 at a concrete one-row store whose flag is set. -/
theorem heartbeat_reads_flag_bumps_time_witness :
    ServerInv ⟨[⟨0, "app", none, 5, 5, "idle", none, true⟩], 1⟩
    ∧ (heartbeat_endpoint 9 0 ⟨[⟨0, "app", none, 5, 5, "idle", none, true⟩], 1⟩).1
        = some true
    ∧ (⟨0, "app", none, 5, 9, "idle", none, true⟩ : SessionRecord)
        ∈ (heartbeat_endpoint 9 0
            ⟨[⟨0, "app", none, 5, 5, "idle", none, true⟩], 1⟩).2.db := by
  have hinv : ServerInv ⟨[⟨0, "app", none, 5, 5, "idle", none, true⟩], 1⟩ :=
    ⟨List.pairwise_singleton _ _, by simp⟩
  have h := (heartbeat_reads_flag_bumps_time 9 0
      ⟨[⟨0, "app", none, 5, 5, "idle", none, true⟩], 1⟩ hinv).1
      ⟨0, "app", none, 5, 5, "idle", none, true⟩ (by simp) rfl
  exact ⟨hinv, h.1, h.2⟩

/-- C4: `DELETE /sessions/stale?older_than_minutes=t` deletes exactly the
rows with `now − last_heartbeat > t` minutes (strictly), keeps every other
row unchanged (the survivors are a sublist of the original rows), and
returns the number of rows deleted. -/
theorem reap_deletes_exactly_stale (now t : Nat) (db : Db) :
    (∀ r ∈ db, r ∈ (cleanup_stale_sessions now t db).1
        ↔ ¬ t * 60 < now - r.last_heartbeat)
    ∧ (cleanup_stale_sessions now t db).1.Sublist db
    ∧ (cleanup_stale_sessions now t db).2
        + (cleanup_stale_sessions now t db).1.length = db.length := by
  refine ⟨?_, List.filter_sublist db, ?_⟩
  · intro r hr
    show r ∈ db.filter _ ↔ _
    rw [List.mem_filter]
    constructor
    · rintro ⟨-, hp⟩
      simp only [Bool.not_eq_true', decide_eq_false_iff_not, Nat.not_lt] at hp
      omega
    · intro hn
      refine ⟨hr, ?_⟩
      simp only [Bool.not_eq_true', decide_eq_false_iff_not, Nat.not_lt]
      omega
  · show (db.filter _).length + (db.filter _).length = db.length
    induction db with
    | nil => rfl
    | cons a l ih =>
      by_cases h : a.last_heartbeat < now - t * 60 <;>
        simp [List.filter_cons, h] <;> omega

/-- Witness for C4: a fresh row survives a 10-minute sweep at time 700. -/
theorem reap_deletes_exactly_stale_witness :
    (⟨1, "a", none, 200, 200, "idle", none, false⟩ : SessionRecord)
      ∈ [(⟨0, "a", none, 0, 0, "idle", none, false⟩ : SessionRecord),
         ⟨1, "a", none, 200, 200, "idle", none, false⟩]
    ∧ ((⟨1, "a", none, 200, 200, "idle", none, false⟩ : SessionRecord)
        ∈ (cleanup_stale_sessions 700 10
            [⟨0, "a", none, 0, 0, "idle", none, false⟩,
             ⟨1, "a", none, 200, 200, "idle", none, false⟩]).1
       ↔ ¬ 10 * 60 < 700 - 200) := by
  refine ⟨by simp, ?_⟩
  exact (reap_deletes_exactly_stale 700 10
      [⟨0, "a", none, 0, 0, "idle", none, false⟩,
       ⟨1, "a", none, 200, 200, "idle", none, false⟩]).1
      ⟨1, "a", none, 200, 200, "idle", none, false⟩ (by simp)

/-- C7: `POST /sessions` draws an id no existing row carries, appends exactly
one row with `start_time = last_heartbeat = now`, `status = "idle"`,
`current_task = none`, `kill_requested = false`, returns that id, and
preserves the server invariant. -/
theorem create_fresh_and_initialised (now : Nat) (app : String)
    (uid : Option String) (s : ServerState) (hinv : ServerInv s) :
    (∀ r ∈ s.db, r.session_id ≠ (create_session now app uid s).1)
    ∧ (create_session now app uid s).2.db
        = s.db ++ [{ session_id := (create_session now app uid s).1,
                     app_name := app, user_id := uid, start_time := now,
                     last_heartbeat := now, status := "idle",
                     current_task := none, kill_requested := false }]
    ∧ ServerInv (create_session now app uid s).2 := by
  refine ⟨?_, ?_, serverInv_create now app uid hinv⟩
  · intro r hr
    exact Nat.ne_of_lt (hinv.2 r hr)
  · show register_session now s.nextId app uid s.db = _
    rw [register_session_fresh (nextId_fresh hinv)]
    rfl

/-- Witness for C7 starting from the empty store. -/
theorem create_fresh_and_initialised_witness :
    ServerInv ⟨[], 0⟩
    ∧ (create_session 3 "app" (some "u") ⟨[], 0⟩).2.db
        = [⟨0, "app", some "u", 3, 3, "idle", none, false⟩] := by
  have hinv : ServerInv ⟨[], 0⟩ := ⟨List.Pairwise.nil, by simp⟩
  exact ⟨hinv, (create_fresh_and_initialised 3 "app" (some "u") ⟨[], 0⟩ hinv).2.1⟩

/-- C10: in a `GET /sessions` snapshot the returned `status` of a row whose
heartbeat is more than 2 minutes (120 s) old is the literal `"stale"`, other
rows keep their stored `status`; `is_stale` is that same condition; the read
leaves the stored table untouched. -/
theorem list_replaces_stale_status (now : Nat) (s : ServerState) :
    ((list_endpoint now s).1.map (fun v => v.status)
        = s.db.map (fun r =>
            if 120 < now - r.last_heartbeat then "stale" else r.status))
    ∧ ((list_endpoint now s).1.map (fun v => v.is_stale)
        = s.db.map (fun r => decide (120 < now - r.last_heartbeat)))
    ∧ (list_endpoint now s).2 = s := by
  refine ⟨?_, ?_, rfl⟩
  · show (get_all_sessions now s.db).map _ = _
    unfold get_all_sessions
    rw [List.map_map]
    refine List.map_congr_left (fun r hr => ?_)
    simp only [Function.comp_apply]
    by_cases h : r.last_heartbeat < now - 120
    · rw [if_pos h, if_pos (by omega)]
    · rw [if_neg h, if_neg (by omega)]
  · show (get_all_sessions now s.db).map _ = _
    unfold get_all_sessions
    rw [List.map_map]
    refine List.map_congr_left (fun r hr => ?_)
    simp only [Function.comp_apply]
    rw [decide_eq_decide]
    omega

/-- C2: `RequestKill` sets the sticky flag; every request of the surface
preserves it while the row is present ("no operation other than deletion
clears it"); while set and present, `Heartbeat` reports `true`; a second
`RequestKill` on an already-killed session is a harmless no-op returning ok
with the store unchanged. -/
theorem kill_requested_sticky (sid : Nat) :
    (∀ db : Db, Killed sid (request_kill sid db))
    ∧ (∀ (s : ServerState) (ops : List ApiOp), Killed sid s.db →
        (∀ p, p <+: ops → presentB sid (apiRun s p).db = true) →
        Killed sid (apiRun s ops).db)
    ∧ (∀ (now : Nat) (s : ServerState), presentB sid s.db = true →
        Killed sid s.db → (heartbeat_endpoint now sid s).1 = some true)
    ∧ (∀ s : ServerState, presentB sid s.db = true → Killed sid s.db →
        kill_endpoint sid s = (true, s)) := by
  refine ⟨?_, fun s ops hk hp => killed_run ops hk hp, ?_, ?_⟩
  · intro db r' hr' hsid
    unfold request_kill at hr'
    rcases List.mem_map.mp hr' with ⟨x, hx, rfl⟩
    by_cases hxs : x.session_id = sid
    · rw [if_pos (by simp [hxs])]
    · rw [if_neg (by simp [hxs])] at hsid ⊢
      exact absurd hsid hxs
  · intro now s hp hk
    rcases presentB_iff.mp hp with ⟨r, hr, hsid⟩
    rw [heartbeat_endpoint_present hp]
    have hck : check_kill_requested sid s.db = true := by
      unfold check_kill_requested
      rw [List.any_eq_true]
      exact ⟨r, hr, by simp [hsid, hk r hr hsid]⟩
    rw [hck]
  · intro s hp hk
    rw [kill_endpoint_present hp, request_kill_noop hk]

/-- Witness for C2 on a one-row killed store: the heartbeat reports `true`
and a second kill is the identity on the state. -/
theorem kill_requested_sticky_witness :
    presentB 0 [(⟨0, "a", none, 1, 1, "idle", none, true⟩ : SessionRecord)] = true
    ∧ Killed 0 [(⟨0, "a", none, 1, 1, "idle", none, true⟩ : SessionRecord)]
    ∧ (heartbeat_endpoint 5 0
        ⟨[⟨0, "a", none, 1, 1, "idle", none, true⟩], 1⟩).1 = some true
    ∧ kill_endpoint 0 ⟨[⟨0, "a", none, 1, 1, "idle", none, true⟩], 1⟩
        = (true, ⟨[⟨0, "a", none, 1, 1, "idle", none, true⟩], 1⟩) := by
  refine ⟨by decide, ?_, ?_, ?_⟩
  · intro r hr hs
    simp only [List.mem_singleton] at hr
    subst hr
    rfl
  · exact (kill_requested_sticky 0).2.2.1 5
      ⟨[⟨0, "a", none, 1, 1, "idle", none, true⟩], 1⟩ (by decide)
      (fun r hr hs => by simp only [List.mem_singleton] at hr; subst hr; rfl)
  · exact (kill_requested_sticky 0).2.2.2
      ⟨[⟨0, "a", none, 1, 1, "idle", none, true⟩], 1⟩ (by decide)
      (fun r hr hs => by simp only [List.mem_singleton] at hr; subst hr; rfl)

/-- C6: `DELETE /sessions/{id}` returns whether the row existed (404 when
not, state unchanged); after a successful delete the id never reappears: no
later request sequence makes `List()` include it, and any later `Heartbeat`
on it returns 404 (`none`). -/
theorem delete_then_gone (sid : Nat) (s : ServerState) (hinv : ServerInv s) :
    ((delete_session sid s).1 = true ↔ ∃ r ∈ s.db, r.session_id = sid)
    ∧ ((delete_session sid s).1 = false → (delete_session sid s).2 = s)
    ∧ ((delete_session sid s).1 = true → ∀ (ops : List ApiOp) (now : Nat),
        (∀ v ∈ (list_endpoint now (apiRun (delete_session sid s).2 ops)).1,
            v.session_id ≠ sid)
        ∧ (heartbeat_endpoint now sid (apiRun (delete_session sid s).2 ops)).1
            = none) := by
  refine ⟨?_, ?_, ?_⟩
  · rw [← presentB_iff]
    rcases hp : presentB sid s.db with h | h
    · rw [delete_session_absent hp]
    · rw [delete_session_present hp]
  · intro hfalse
    rcases hp : presentB sid s.db with h | h
    · rw [delete_session_absent hp]
    · rw [delete_session_present hp] at hfalse
      exact absurd hfalse (by simp)
  · intro hdel ops now
    have hp : presentB sid s.db = true := by
      rcases hq : presentB sid s.db with h | h
      · rw [delete_session_absent hq] at hdel
        exact absurd hdel (by simp)
      · rfl
    have hgone : Gone sid (delete_session sid s).2 := by
      rw [delete_session_present hp]
      rcases presentB_iff.mp hp with ⟨r, hr, hsid⟩
      refine ⟨serverInv_filter hinv, hsid ▸ hinv.2 r hr, ?_⟩
      intro r' hr'
      have hkeep := (List.mem_filter.mp hr').2
      simpa using hkeep
    have hg := gone_run ops hgone
    constructor
    · intro v hv
      rcases List.mem_map.mp hv with ⟨r', hr', rfl⟩
      simpa using hg.2.2 r' hr'
    · rw [heartbeat_endpoint_absent (presentB_eq_false.mpr hg.2.2)]

/-- C3 counterexample: contrary to the claim, `SessionClient` has no
"already fired" latch — a callback registered after the list has been
consumed does not execute immediately and synchronously.  After a stop
trigger has consumed the (empty) list, `on_kill 0` leaves the run log empty
and merely queues the callback. -/
theorem on_kill_post_consumption_not_immediate :
    (execClient (fun _ => false)
        [ClientOp.stopCall, ClientOp.onKill 0]).runLog = []
    ∧ (execClient (fun _ => false)
        [ClientOp.stopCall, ClientOp.onKill 0]).pending = [0] := by
  decide

/-- C3 (amended): the first trigger consumes the whole registered list,
invoking each callback once in registration order with an individual
failure not preventing the rest; a callback registered once and followed by
a trigger is invoked exactly once no matter how many further triggers of
either kind occur; but a callback registered after the list has been
consumed is only queued — the run log is unchanged until a further trigger
fires (it does not execute immediately). -/
theorem on_kill_exactly_once (fails : Nat → Bool) (cs : List Nat) (c d : Nat)
    (t : ClientOp) (l₁ l₂ : List ClientOp) (ht : t.isTrigger = true)
    (hc₁ : ClientOp.onKill c ∉ l₁) (hc₂ : ClientOp.onKill c ∉ l₂)
    (htrig : ∃ u ∈ l₂, u.isTrigger = true) :
    (execClient fails (cs.map ClientOp.onKill ++ [t])).runLog
        = cs.map (fun e => (e, !fails e))
    ∧ ((execClient fails (l₁ ++ ClientOp.onKill c :: l₂)).runLog.map
        Prod.fst).count c = 1
    ∧ (execClient fails
          (cs.map ClientOp.onKill ++ [t] ++ [ClientOp.onKill d])).runLog
        = (execClient fails (cs.map ClientOp.onKill ++ [t])).runLog := by
  refine ⟨?_, ?_, ?_⟩
  · unfold execClient
    rw [List.foldl_append, exec_onKill_list]
    cases t with
    | onKill e => simp [ClientOp.isTrigger] at ht
    | killDetected =>
      simp [List.foldl_cons, List.foldl_nil, clientStep, consumeCallbacks,
            invokeAll]
    | stopCall =>
      simp [List.foldl_cons, List.foldl_nil, clientStep, consumeCallbacks,
            invokeAll]
  · obtain ⟨u, hu, hut⟩ := htrig
    obtain ⟨a, b, rfl⟩ := List.append_of_mem hu
    have hb : ClientOp.onKill c ∉ b := fun h => hc₂ (by simp [h])
    have hcount : (l₁ ++ ClientOp.onKill c :: (a ++ u :: b)).count
        (ClientOp.onKill c) = 1 := by
      rw [List.count_append, List.count_cons]
      have h1 : l₁.count (ClientOp.onKill c) = 0 := List.count_eq_zero.mpr hc₁
      have h2 : (a ++ u :: b).count (ClientOp.onKill c) = 0 :=
        List.count_eq_zero.mpr hc₂
      simp [h1, h2]
    have htotal :
        cbCount c (execClient fails (l₁ ++ ClientOp.onKill c :: (a ++ u :: b)))
          = 1 := by
      unfold execClient
      rw [exec_count]
      simpa [cbCount] using hcount
    have hpend :
        c ∉ (execClient fails
            (l₁ ++ ClientOp.onKill c :: (a ++ u :: b))).pending := by
      have hsplit : l₁ ++ ClientOp.onKill c :: (a ++ u :: b)
          = ((l₁ ++ ClientOp.onKill c :: a) ++ [u]) ++ b := by
        simp
      unfold execClient
      rw [hsplit, List.foldl_append, List.foldl_append]
      refine pending_no_new fails c b _ ?_ hb
      have hu0 : (List.foldl (clientStep fails)
          (List.foldl (clientStep fails) { pending := [], runLog := [] }
            (l₁ ++ ClientOp.onKill c :: a)) [u]).pending = [] :=
        trigger_pending fails _ hut
      rw [hu0]
      simp
    have hpc :
        (execClient fails
          (l₁ ++ ClientOp.onKill c :: (a ++ u :: b))).pending.count c = 0 :=
      List.count_eq_zero.mpr hpend
    unfold cbCount at htotal
    omega
  · unfold execClient
    rw [List.foldl_append (l := cs.map ClientOp.onKill ++ [t])]
    rfl

/-- Witness for the amended C3: callbacks 1 and 2 registered before the
kill trigger both run in order — callback 1 fails, callback 2 still runs —
and a callback registered once before a later stop runs exactly once. -/
theorem on_kill_exactly_once_witness :
    ClientOp.isTrigger ClientOp.killDetected = true
    ∧ (execClient (fun e => e == 1)
          ([1, 2].map ClientOp.onKill ++ [ClientOp.killDetected])).runLog
        = [1, 2].map (fun e => (e, !(e == 1)))
    ∧ ((execClient (fun e => e == 1)
          ([] ++ ClientOp.onKill 5 :: [ClientOp.stopCall])).runLog.map
            Prod.fst).count 5 = 1 := by
  have h := on_kill_exactly_once (fun e => e == 1) [1, 2] 5 9
      ClientOp.killDetected [] [ClientOp.stopCall] rfl (by decide) (by decide)
      ⟨ClientOp.stopCall, by decide, rfl⟩
  exact ⟨rfl, h.1, h.2.1⟩

/-- C5: over any `Acquire`/`Release` sequence from module load, the
reference count never goes negative; the pool object exists exactly while
the count is positive (it is torn down exactly when the count reaches
zero); every pool instance that ever existed has an epoch below the current
counter, so the pool a post-teardown `Acquire` lazily constructs (epoch =
current counter) is distinct from every earlier instance. -/
theorem pool_refcount_lifecycle (ops : List PoolOp) :
    0 ≤ (poolRun ops).active
    ∧ ((poolRun ops).pool.isSome ↔ 0 < (poolRun ops).active)
    ∧ (∀ (p : List PoolOp) (e : Nat), p <+: ops → (poolRun p).pool = some e →
        e < (poolRun ops).nextEpoch)
    ∧ ((poolRun ops).pool = none →
        (poolStep (poolRun ops) PoolOp.acquire).pool
          = some (poolRun ops).nextEpoch) := by
  refine ⟨(poolRun_inv ops).1, (poolRun_inv ops).2.1, ?_, ?_⟩
  · intro p e hpre hsome
    obtain ⟨q, rfl⟩ := hpre
    have h1 : e < (poolRun p).nextEpoch := (poolRun_inv p).2.2 e hsome
    have h2 : (poolRun p).nextEpoch ≤ (poolRun (p ++ q)).nextEpoch := by
      unfold poolRun
      rw [List.foldl_append]
      exact poolFold_nextEpoch q
    exact Nat.lt_of_lt_of_le h1 h2
  · intro h
    simp [poolStep, increment_sessions, get_pool, h]

/-- Witness for C5: acquire then release tears the pool down; the next
acquire builds the distinct epoch-1 instance, not the old epoch-0 one. -/
theorem pool_refcount_lifecycle_witness :
    ([PoolOp.acquire] <+: [PoolOp.acquire, PoolOp.release])
    ∧ (poolRun [PoolOp.acquire]).pool = some 0
    ∧ 0 < (poolRun [PoolOp.acquire, PoolOp.release]).nextEpoch
    ∧ (poolRun [PoolOp.acquire, PoolOp.release]).pool = none
    ∧ (poolStep (poolRun [PoolOp.acquire, PoolOp.release]) PoolOp.acquire).pool
        = some (poolRun [PoolOp.acquire, PoolOp.release]).nextEpoch := by
  refine ⟨⟨[PoolOp.release], rfl⟩, by decide, ?_, by decide, ?_⟩
  · exact (pool_refcount_lifecycle [PoolOp.acquire, PoolOp.release]).2.2.1
      [PoolOp.acquire] 0 ⟨[PoolOp.release], rfl⟩ (by decide)
  · exact (pool_refcount_lifecycle [PoolOp.acquire, PoolOp.release]).2.2.2
      (by decide)

/-- Fields of a row the status update targeted. -/
lemma set_status_fields {now sid : Nat} {st : String} {task : Option String}
    {db : Db} {r : SessionRecord} (hr : r ∈ set_status now sid st task db)
    (hsid : r.session_id = sid) : r.status = st ∧ r.current_task = task := by
  unfold set_status at hr
  rcases List.mem_map.mp hr with ⟨x, hx, rfl⟩
  by_cases hxs : x.session_id = sid
  · rw [if_pos (by simp [hxs])]
    exact ⟨rfl, rfl⟩
  · rw [if_neg (by simp [hxs])] at hsid ⊢
    exact absurd hsid hxs

/-- Rows with another id pass through a status update untouched. -/
lemma set_status_other {now sid : Nat} {st : String} {task : Option String}
    {db : Db} {r : SessionRecord} (hr : r ∈ set_status now sid st task db)
    (hsid : r.session_id ≠ sid) : r ∈ db := by
  unfold set_status at hr
  rcases List.mem_map.mp hr with ⟨x, hx, rfl⟩
  by_cases hxs : x.session_id = sid
  · rw [if_pos (by simp [hxs])] at hsid
    exact absurd hxs hsid
  · rw [if_neg (by simp [hxs])]
    exact hx

/-- C8: the `task(name)` scope sets `status = "running"`,
`current_task = name` on entry, and on every exit path — the body finishing
normally or raising — resets `status = "idle"`, `current_task = none`,
propagating the body's outcome unchanged; rows of other sessions pass
through untouched. -/
theorem task_scoped {E A : Type} (now₁ now₂ sid : Nat) (name : String)
    (body : Outcome E A) (db : Db) :
    (tracker_task now₁ now₂ sid name body db).1 = body
    ∧ (∀ r ∈ set_status now₁ sid "running" (some name) db,
        r.session_id = sid → r.status = "running" ∧ r.current_task = some name)
    ∧ (∀ r ∈ (tracker_task now₁ now₂ sid name body db).2,
        r.session_id = sid → r.status = "idle" ∧ r.current_task = none)
    ∧ (∀ r ∈ (tracker_task now₁ now₂ sid name body db).2,
        r.session_id ≠ sid → r ∈ db) := by
  refine ⟨rfl, ?_, ?_, ?_⟩
  · intro r hr hsid
    exact set_status_fields hr hsid
  · intro r hr hsid
    exact set_status_fields hr hsid
  · intro r hr hsid
    exact set_status_other (set_status_other hr hsid) hsid

/-- Witness for C8 on the exception path: the wrapped work raises, the
outcome propagates, and the row is back to idle with no task. -/
theorem task_scoped_witness :
    ((⟨0, "a", none, 1, 8, "idle", none, false⟩ : SessionRecord)
        ∈ (tracker_task 7 8 0 "job" (Outcome.exn () : Outcome Unit Unit)
            [⟨0, "a", none, 1, 1, "idle", none, false⟩]).2)
    ∧ ((⟨0, "a", none, 1, 8, "idle", none, false⟩ : SessionRecord).status = "idle"
        ∧ (⟨0, "a", none, 1, 8, "idle", none, false⟩
            : SessionRecord).current_task = none)
    ∧ (tracker_task 7 8 0 "job" (Outcome.exn () : Outcome Unit Unit)
        [⟨0, "a", none, 1, 1, "idle", none, false⟩]).1 = Outcome.exn () := by
  refine ⟨by decide, ?_, rfl⟩
  exact (task_scoped 7 8 0 "job" (Outcome.exn () : Outcome Unit Unit)
      [⟨0, "a", none, 1, 1, "idle", none, false⟩]).2.2.1
      ⟨0, "a", none, 1, 8, "idle", none, false⟩ (by decide) rfl

/-- C9: when registration fails (`none`), `__init__` completes without an
escaping exception in offline mode: `_connected` is false, no heartbeat
thread is started (so kill delivery is unavailable for the session's
lifetime), every status update is a local no-op on the store, and a `task`
block still executes its body, propagating the body's outcome. -/
theorem offline_mode_degrades {E A : Type} (localId : Nat)
    (body : Outcome E A) :
    (client_init none localId).connected = false
    ∧ (client_init none localId).heartbeatStarted = false
    ∧ (∀ (now : Nat) (st : String) (task : Option String) (s : ServerState),
        client_set_status (client_init none localId) now st task s = s)
    ∧ (∀ (now₁ now₂ : Nat) (name : String) (s : ServerState),
        client_task (client_init none localId) now₁ now₂ name body s
          = (body, s)) :=
  ⟨rfl, rfl, fun _ _ _ _ => rfl, fun _ _ _ _ => rfl⟩

/-- Witness for C6: delete the only row, then create a new session; the old
id still yields 404 on heartbeat. -/
theorem delete_then_gone_witness :
    ServerInv ⟨[⟨0, "a", none, 1, 1, "idle", none, false⟩], 1⟩
    ∧ (delete_session 0 ⟨[⟨0, "a", none, 1, 1, "idle", none, false⟩], 1⟩).1 = true
    ∧ (heartbeat_endpoint 9 0
        (apiRun (delete_session 0
            ⟨[⟨0, "a", none, 1, 1, "idle", none, false⟩], 1⟩).2
          [ApiOp.create 5 "b" none])).1 = none := by
  have hinv : ServerInv ⟨[⟨0, "a", none, 1, 1, "idle", none, false⟩], 1⟩ :=
    ⟨List.pairwise_singleton _ _, by simp⟩
  refine ⟨hinv, by decide, ?_⟩
  exact ((delete_then_gone 0 ⟨[⟨0, "a", none, 1, 1, "idle", none, false⟩], 1⟩
      hinv).2.2 (by decide) [ApiOp.create 5 "b" none] 9).2

end SessionMonitor
